import Mathlib

/-!
Windows activity monitor (`monitor_win.cpp`): record encoder, readers and sampling loop.

A shallow embedding of `apps/app/src/native/monitor_win.cpp`.

* A C++ `std::string` is a `List Char`, one list element per `char` of the string. The
  code compares a `char` only with five ASCII codes and with NUL, so a character that
  takes several `char`s in the encoding of the window text is written as one element.
* `DWORD` values are natural numbers below `2 ^ 32`; `DWORD` arithmetic is taken
  modulo `2 ^ 32`; the cast `(int)` of a `DWORD` is two's complement.
* The outcomes of operating-system calls are inputs of the model.
* `operator<<(double)` belongs to the C++ library: the text it prints is a parameter
  of every definition that streams a `double` (`text`, `idleText`, or the function `fmt`
  from the value to its text). The value itself is kept in exact rational arithmetic.
-/

namespace MonitorWin

/-! ## JsonBuilder -/

/-- The loop body of `JsonBuilder::escape`: what is streamed into `o` for one `char`. -/
def escapeStep (o : List Char) (c : Char) : List Char :=
  if c = '"' then o ++ ['\\', '"']
  else if c = '\\' then o ++ ['\\', '\\']
  else if c = '\n' then o ++ ['\\', 'n']
  else if c = '\r' then o ++ ['\\', 'r']
  else if c = '\t' then o ++ ['\\', 't']
  else o ++ [c]

/-- `JsonBuilder::escape`: the stream `o` starts empty, the loop runs over the
characters of `str` from left to right, and `o.str()` is returned. -/
def escape (str : List Char) : List Char :=
  str.foldl escapeStep []

/-- The replacement of one character, as the specification words it: the five special
characters become a backslash followed by a letter, every other character is itself. -/
def escapeCharSpec (c : Char) : List Char :=
  if c = '"' then ['\\', '"']
  else if c = '\\' then ['\\', '\\']
  else if c = '\n' then ['\\', 'n']
  else if c = '\r' then ['\\', 'r']
  else if c = '\t' then ['\\', 't']
  else [c]

/-- Escaping as the specification words it: each character replaced, in order. -/
def escapeSpec (s : List Char) : List Char :=
  s.flatMap escapeCharSpec

/-- The five characters that `escape` rewrites. -/
def isSpecial (c : Char) : Bool :=
  c = '"' || c = '\\' || c = '\n' || c = '\r' || c = '\t'

/-- `operator<<(int)` of an `ostringstream` in the classic locale: decimal digits,
with a leading minus sign for a negative value. -/
def intToChars : Int → List Char
  | Int.ofNat n => Nat.toDigits 10 n
  | Int.negSucc n => '-' :: Nat.toDigits 10 (n + 1)

/-- The state of a `JsonBuilder`: the text streamed into `ss` so far and the flag `first`. -/
structure JsonBuilder where
  ss : List Char
  first : Bool
deriving DecidableEq, Repr

/-- A freshly constructed `JsonBuilder`: empty stream, `first = true`. -/
def JsonBuilder.init : JsonBuilder := ⟨[], true⟩

/-- The statement `if (!first) ss << ","` that opens every `add`. -/
def JsonBuilder.comma (b : JsonBuilder) : List Char :=
  if !b.first then b.ss ++ [','] else b.ss

/-- `JsonBuilder::add(const std::string& key, const std::string& value)`. -/
def JsonBuilder.addString (b : JsonBuilder) (key value : List Char) : JsonBuilder :=
  { ss := b.comma ++ ['"'] ++ key ++ ['"', ':', '"'] ++ escape value ++ ['"'],
    first := false }

/-- `JsonBuilder::add(const std::string& key, double value)`; `text` is what
`operator<<(double)` prints for `value`. -/
def JsonBuilder.addDouble (b : JsonBuilder) (key text : List Char) : JsonBuilder :=
  { ss := b.comma ++ ['"'] ++ key ++ ['"', ':'] ++ text,
    first := false }

/-- `JsonBuilder::add(const std::string& key, int value)`. -/
def JsonBuilder.addInt (b : JsonBuilder) (key : List Char) (value : Int) : JsonBuilder :=
  { ss := b.comma ++ ['"'] ++ key ++ ['"', ':'] ++ intToChars value,
    first := false }

/-- `JsonBuilder::build`. -/
def JsonBuilder.build (b : JsonBuilder) : List Char :=
  ['\x7b'] ++ b.ss ++ ['\x7d']

/-- The five `add` calls of `GetWinStatus` followed by `build`, on the values handed to
the encoder: the printed idle time, the window title, the result of `IsAudioPlaying`,
the process id after the cast to `int`, and the process name. -/
def encodeSample (idleText title : List Char) (audioPlaying : Bool) (pid : Int)
    (processName : List Char) : List Char :=
  let json := JsonBuilder.init
  let json := json.addDouble "idle_time".toList idleText
  let json := json.addString "window_title".toList title
  let json := json.addInt "audio_playing".toList (if audioPlaying then 1 else 0)
  let json := json.addInt "pid".toList pid
  let json := json.addString "process_name".toList processName
  json.build

/-! ## GetProcessName -/

/-- A diagnostic line written to `std::cerr`. -/
inductive Diag where
  /-- The line `[DEBUG] Windows Monitor started at <time>` of `main`. -/
  | started (timeStr : List Char)
  /-- The line `[DEBUG] Error opening process PID <pid>` of `GetProcessName`. -/
  | openError (pid : Nat)
  /-- The line `[DEBUG] Process name: <name> (PID: <pid>, Path: <path>)`. -/
  | processName (name : List Char) (pid : Nat) (path : List Char)
  /-- The line `[DEBUG] Error in main loop` of the `catch (...)` handler of `main`. -/
  | mainLoopError
deriving DecidableEq, Repr

/-- What the operating system answers to the calls of `GetProcessName`. -/
inductive ProcessLookup where
  /-- `OpenProcess` returns a null handle. -/
  | openFailed
  /-- `OpenProcess` succeeds and `GetModuleFileNameExA` returns zero. -/
  | moduleNameFailed
  /-- Both calls succeed; `buffer` is what `GetModuleFileNameExA` wrote to `processPath`. -/
  | path (buffer : List Char)
deriving DecidableEq, Repr

/-- Construction of a `std::string` from a `char` buffer: the characters before the
first NUL. -/
def cString (buf : List Char) : List Char :=
  buf.takeWhile (fun c => c ≠ '\x00')

/-- The member `find_last_of` of `std::string`: the last position holding a character
of `set`, `none` standing for `npos`. -/
def findLastOf (str set : List Char) : Option Nat :=
  ((str.enum.filter (fun p => set.contains p.2)).map Prod.fst).getLast?

/-- `GetProcessName`: the diagnostics written to `std::cerr` and the returned name. -/
def GetProcessName (os : ProcessLookup) (pid : Nat) : List Diag × List Char :=
  match os with
  | ProcessLookup.openFailed => ([Diag.openError pid], [])
  | ProcessLookup.path buffer =>
    let path := cString buffer
    let name :=
      match findLastOf path ['\\', '/'] with
      | some pos => path.drop (pos + 1)
      | none => path
    let name := name.map Char.toLower
    ([Diag.processName name pid path], name)
  | ProcessLookup.moduleNameFailed => ([], [])

/-! ## IsAudioPlaying -/

/-- The COM objects `IsAudioPlaying` holds a reference to; the session objects carry the
loop index `i`. -/
inductive ComObj where
  /-- The outer `pEnumerator` (`IMMDeviceEnumerator`). -/
  | deviceEnumerator
  /-- The pointer `pDevice`. -/
  | device
  /-- The pointer `pVolume` (`ISimpleAudioVolume`). -/
  | volume
  /-- The pointer `pManager` (`IAudioSessionManager2`). -/
  | sessionManager
  /-- The inner `pEnumerator` (`IAudioSessionEnumerator`). -/
  | sessionEnumerator
  /-- The pointer `pControl` of iteration `i`. -/
  | sessionControl (i : Nat)
  /-- The pointer `pControl2` of iteration `i`. -/
  | sessionControl2 (i : Nat)
deriving DecidableEq, Repr

/-- The reference-counting calls `IsAudioPlaying` makes, in the order it makes them. -/
inductive ComEvent where
  /-- A call of `CoInitializeEx` that succeeded. -/
  | coInitialize
  /-- A call of `CoUninitialize`. -/
  | coUninitialize
  /-- A call that handed out a reference to `o`. -/
  | acquire (o : ComObj)
  /-- A call `o->Release()`. -/
  | release (o : ComObj)
deriving DecidableEq, Repr

/-- The enumeration `AudioSessionState`. -/
inductive AudioSessionState where
  | inactive
  | active
  | expired
deriving DecidableEq, Repr

/-- What the operating system answers for the session of one loop index. -/
inductive SessionOutcome where
  /-- `GetSession` fails. -/
  | getSessionFailed
  /-- `GetSession` succeeds, `QueryInterface` fails. -/
  | queryInterfaceFailed
  /-- `GetSession` and `QueryInterface` succeed, `GetState` fails. -/
  | getStateFailed
  /-- All three calls succeed and `GetState` reports `st`. -/
  | state (st : AudioSessionState)
deriving DecidableEq, Repr

/-- What the operating system answers to the calls of `IsAudioPlaying`: for each call
whether its `HRESULT` satisfies `SUCCEEDED`, the value of `count` after `GetCount`, and
the outcome for each session index. -/
structure AudioEnv where
  coInitializeEx : Bool
  coCreateInstance : Bool
  getDefaultAudioEndpoint : Bool
  activateVolume : Bool
  activateManager : Bool
  getSessionEnumerator : Bool
  count : Int
  session : Nat → SessionOutcome

/-- The `for` loop over the sessions, from index `i` on, with `fuel` iterations left
before `i` reaches `count`. The result is `isPlaying` and the extended log; the first
branch is the one that leaves the loop through `break`. -/
def sessionLoop (session : Nat → SessionOutcome) :
    Nat → Nat → List ComEvent → Bool × List ComEvent
  | 0, _, log => (false, log)
  | fuel + 1, i, log =>
    match session i with
    | SessionOutcome.state AudioSessionState.active =>
      (true, log ++ [ComEvent.acquire (ComObj.sessionControl i),
        ComEvent.acquire (ComObj.sessionControl2 i),
        ComEvent.release (ComObj.sessionControl2 i)])
    | SessionOutcome.state _ =>
      sessionLoop session fuel (i + 1)
        (log ++ [ComEvent.acquire (ComObj.sessionControl i),
          ComEvent.acquire (ComObj.sessionControl2 i),
          ComEvent.release (ComObj.sessionControl2 i),
          ComEvent.release (ComObj.sessionControl i)])
    | SessionOutcome.getStateFailed =>
      sessionLoop session fuel (i + 1)
        (log ++ [ComEvent.acquire (ComObj.sessionControl i),
          ComEvent.acquire (ComObj.sessionControl2 i),
          ComEvent.release (ComObj.sessionControl2 i),
          ComEvent.release (ComObj.sessionControl i)])
    | SessionOutcome.queryInterfaceFailed =>
      sessionLoop session fuel (i + 1)
        (log ++ [ComEvent.acquire (ComObj.sessionControl i),
          ComEvent.release (ComObj.sessionControl i)])
    | SessionOutcome.getSessionFailed =>
      sessionLoop session fuel (i + 1) log

/-- The block guarded by the success of `GetSessionEnumerator`. -/
def audioFromSessionEnumerator (env : AudioEnv) (log : List ComEvent) :
    Bool × List ComEvent :=
  if env.getSessionEnumerator then
    let r := sessionLoop env.session env.count.toNat 0
      (log ++ [ComEvent.acquire ComObj.sessionEnumerator])
    (r.1, r.2 ++ [ComEvent.release ComObj.sessionEnumerator])
  else (false, log)

/-- The block guarded by the success of the activation of `IAudioSessionManager2`. -/
def audioFromManager (env : AudioEnv) (log : List ComEvent) : Bool × List ComEvent :=
  if env.activateManager then
    let r := audioFromSessionEnumerator env (log ++ [ComEvent.acquire ComObj.sessionManager])
    (r.1, r.2 ++ [ComEvent.release ComObj.sessionManager])
  else (false, log)

/-- The block guarded by the success of the activation of `ISimpleAudioVolume`. -/
def audioFromVolume (env : AudioEnv) (log : List ComEvent) : Bool × List ComEvent :=
  if env.activateVolume then
    let r := audioFromManager env (log ++ [ComEvent.acquire ComObj.volume])
    (r.1, r.2 ++ [ComEvent.release ComObj.volume])
  else (false, log)

/-- The block guarded by the success of `GetDefaultAudioEndpoint`. -/
def audioFromDevice (env : AudioEnv) (log : List ComEvent) : Bool × List ComEvent :=
  if env.getDefaultAudioEndpoint then
    let r := audioFromVolume env (log ++ [ComEvent.acquire ComObj.device])
    (r.1, r.2 ++ [ComEvent.release ComObj.device])
  else (false, log)

/-- The block guarded by the success of `CoCreateInstance`. -/
def audioFromEnumerator (env : AudioEnv) (log : List ComEvent) : Bool × List ComEvent :=
  if env.coCreateInstance then
    let r := audioFromDevice env (log ++ [ComEvent.acquire ComObj.deviceEnumerator])
    (r.1, r.2 ++ [ComEvent.release ComObj.deviceEnumerator])
  else (false, log)

/-- `IsAudioPlaying`: the returned `bool` and the log of reference-counting calls. -/
def IsAudioPlaying (env : AudioEnv) : Bool × List ComEvent :=
  if !env.coInitializeEx then (false, [])
  else
    let r := audioFromEnumerator env [ComEvent.coInitialize]
    (r.1, r.2 ++ [ComEvent.coUninitialize])

/-- Number of references to `o` handed out in `log`. -/
def acquires (log : List ComEvent) (o : ComObj) : Nat :=
  log.count (ComEvent.acquire o)

/-- Number of `Release` calls on `o` in `log`. -/
def releases (log : List ComEvent) (o : ComObj) : Nat :=
  log.count (ComEvent.release o)

/-- References handed out minus references released, over all objects. -/
def netRefs : List ComEvent → Int
  | [] => 0
  | ComEvent.acquire _ :: rest => netRefs rest + 1
  | ComEvent.release _ :: rest => netRefs rest - 1
  | _ :: rest => netRefs rest

/-- Successful initialisations minus uninitialisations of the audio subsystem. -/
def netInit : List ComEvent → Int
  | [] => 0
  | ComEvent.coInitialize :: rest => netInit rest + 1
  | ComEvent.coUninitialize :: rest => netInit rest - 1
  | _ :: rest => netInit rest

/-! ## GetWinStatus -/

/-- Subtraction of two `DWORD` values: unsigned 32-bit arithmetic. -/
def dwordSub (a b : Nat) : Nat :=
  (a % 4294967296 + 4294967296 - b % 4294967296) % 4294967296

/-- The cast `(int)` of a `DWORD`: the 32-bit pattern read in two's complement. -/
def castInt (d : Nat) : Int :=
  if d % 4294967296 < 2147483648 then ((d % 4294967296 : Nat) : Int)
  else ((d % 4294967296 : Nat) : Int) - 4294967296

/-- The foreground window as the operating system reports it: its text and the process
id that `GetWindowThreadProcessId` stores for it. -/
structure ForegroundWindow where
  text : List Char
  pid : Nat
deriving DecidableEq, Repr

/-- The places of `GetWinStatus` where a C++ exception can be raised: the string
operations of `GetProcessName` (before its diagnostic line), and the `JsonBuilder`
calls and `build` (after `GetProcessName` has returned, before anything is written to
`std::cout`). The stream insertions themselves report failure in the stream state. -/
inductive FaultPoint where
  | inGetProcessName
  | inJsonBuilder
deriving DecidableEq, Repr

/-- What the operating system answers during one call of `GetWinStatus`.
`lastInput` is `some t` when `GetLastInputInfo` succeeds and stores `t` in `lii.dwTime`,
and `none` when it fails and leaves `lii.dwTime` as it was; `staleDwTime` is the content
of the uninitialised local `lii.dwTime` before the call; `foreground` is `none` when
`GetForegroundWindow` returns a null handle. -/
structure CycleEnv where
  lastInput : Option Nat
  staleDwTime : Nat
  currentTick : Nat
  foreground : Option ForegroundWindow
  process : ProcessLookup
  audio : AudioEnv
  fault : Option FaultPoint

/-- The value of `lii.dwTime` after the call of `GetLastInputInfo`, whose return value
is not looked at. -/
def CycleEnv.dwTime (env : CycleEnv) : Nat :=
  match env.lastInput with
  | some t => t
  | none => env.staleDwTime

/-- The `DWORD` difference `currentTick - lii.dwTime`. -/
def idleMillis (env : CycleEnv) : Nat :=
  dwordSub env.currentTick env.dwTime

/-- The local `idleTime`: the difference divided by `1000.0`, in exact arithmetic. -/
def idleTime (env : CycleEnv) : ℚ :=
  (idleMillis env : ℚ) / 1000

/-- The string `std::string(windowTitle)`: the buffer of 256 characters starts as
zeros, `GetWindowTextA` copies at most 255 characters of the text into it. -/
def windowTitle (env : CycleEnv) : List Char :=
  match env.foreground with
  | some w => cString (w.text.take 255)
  | none => []

/-- The local `pid`: initialised to 0, overwritten for a foreground window. -/
def foregroundPid (env : CycleEnv) : Nat :=
  match env.foreground with
  | some w => w.pid
  | none => 0

/-- The record that `GetWinStatus` builds from the readings of one cycle. -/
def recordLine (fmt : ℚ → List Char) (env : CycleEnv) : List Char :=
  encodeSample (fmt (idleTime env)) (windowTitle env) (IsAudioPlaying env.audio).1
    (castInt (foregroundPid env)) (GetProcessName env.process (foregroundPid env)).2

/-- What the process does that an observer can see. -/
inductive Event where
  /-- One line written to `std::cout`, followed by `std::endl`. -/
  | out (line : List Char)
  /-- One line written to `std::cerr`. -/
  | err (d : Diag)
  /-- A call `Sleep(ms)`. -/
  | sleep (ms : Nat)
deriving DecidableEq, Repr

/-- How a block of statements ends. -/
inductive Completion where
  | normal
  | thrown
deriving DecidableEq, Repr

/-- `GetWinStatus`: the events of one call and how it ends. -/
def GetWinStatus (fmt : ℚ → List Char) (env : CycleEnv) : List Event × Completion :=
  match env.fault with
  | some FaultPoint.inGetProcessName => ([], Completion.thrown)
  | some FaultPoint.inJsonBuilder =>
    ((GetProcessName env.process (foregroundPid env)).1.map Event.err, Completion.thrown)
  | none =>
    ((GetProcessName env.process (foregroundPid env)).1.map Event.err
      ++ [Event.out (recordLine fmt env)], Completion.normal)

/-! ## main -/

/-- The body of the `while (true)` loop of `main`: the `try` block with its
`catch (...)` handler, then `Sleep(2000)`. -/
def loopBody (fmt : ℚ → List Char) (env : CycleEnv) : List Event × Completion :=
  match GetWinStatus fmt env with
  | (events, Completion.normal) => (events ++ [Event.sleep 2000], Completion.normal)
  | (events, Completion.thrown) =>
    (events ++ [Event.err Diag.mainLoopError] ++ [Event.sleep 2000], Completion.normal)

/-- The `while (true)` loop observed for at most `fuel` iterations, starting with cycle
number `i`; `envs i` is what the operating system answers in cycle `i`. The loop is left
only when its body does not complete normally. The result is the events and the number
of iterations that were run to their end. -/
def mainLoop (fmt : ℚ → List Char) (envs : Nat → CycleEnv) :
    Nat → Nat → List Event × Nat
  | 0, _ => ([], 0)
  | fuel + 1, i =>
    match loopBody fmt (envs i) with
    | (events, Completion.normal) =>
      let r := mainLoop fmt envs fuel (i + 1)
      (events ++ r.1, r.2 + 1)
    | (events, Completion.thrown) => (events, 0)

/-- `main`, observed for `fuel` iterations of its loop. -/
def main (fmt : ℚ → List Char) (timeStr : List Char) (envs : Nat → CycleEnv) (fuel : Nat) :
    List Event × Nat :=
  let r := mainLoop fmt envs fuel 0
  (Event.err (Diag.started timeStr) :: r.1, r.2)

/-- Whether an event is a line on `std::cout`. -/
def Event.isOut : Event → Bool
  | Event.out _ => true
  | _ => false

/-- Number of lines written to `std::cout`. -/
def outLines (events : List Event) : Nat :=
  events.countP Event.isOut

/-- Number of failure notices of the main loop written to `std::cerr`. -/
def failureNotices (events : List Event) : Nat :=
  events.count (Event.err Diag.mainLoopError)

/-- Number of `Sleep(2000)` calls. -/
def sleeps (events : List Event) : Nat :=
  events.count (Event.sleep 2000)

/-! ## A reader of the record, as the consumer is described -/

/-- The character an escape letter stands for. -/
def unescapeChar (c : Char) : Char :=
  if c = 'n' then '\n' else if c = 'r' then '\r' else if c = 't' then '\t' else c

/-- Reads a string value up to its closing quote, turning each backslash pair back into
one character; `escaped` tells that the previous character was a backslash. The result
is the value and the input after the closing quote. -/
def readString : Bool → List Char → Option (List Char × List Char)
  | _, [] => none
  | true, c :: rest =>
    (readString false rest).map (fun r => (unescapeChar c :: r.1, r.2))
  | false, c :: rest =>
    if c = '"' then some ([], rest)
    else if c = '\\' then readString true rest
    else (readString false rest).map (fun r => (c :: r.1, r.2))

/-- Consumes the fixed text `lit` at the start of the input. -/
def expectLit (lit input : List Char) : Option (List Char) :=
  if lit.isPrefixOf input then some (input.drop lit.length) else none

/-- The value of a run of decimal digits. -/
def parseNat (ds : List Char) : Nat :=
  ds.foldl (fun acc c => 10 * acc + (c.toNat - 48)) 0

/-- Reads an integer in decimal: an optional minus sign, then a run of digits that is
not empty. The result is the value and the input after the digits. -/
def readInt (input : List Char) : Option (Int × List Char) :=
  match input with
  | [] => none
  | c :: rest =>
    if c = '-' then
      if (rest.takeWhile Char.isDigit).isEmpty then none
      else some (-(parseNat (rest.takeWhile Char.isDigit) : Int), rest.dropWhile Char.isDigit)
    else
      if ((c :: rest).takeWhile Char.isDigit).isEmpty then none
      else some ((parseNat ((c :: rest).takeWhile Char.isDigit) : Int),
        (c :: rest).dropWhile Char.isDigit)

/-- The fields read back from one record. -/
structure Decoded where
  idleText : List Char
  windowTitle : List Char
  audioPlaying : Int
  pid : Int
  processName : List Char
deriving DecidableEq, Repr

/-- The text of a record before the idle time. -/
def litIdle : List Char := "\x7b\"idle_time\":".toList

/-- The text of a record between the idle time and the window title. -/
def litTitle : List Char := ",\"window_title\":\"".toList

/-- The text of a record between the closing quote of the window title and the audio
flag. -/
def litAudio : List Char := ",\"audio_playing\":".toList

/-- The text of a record between the audio flag and the process id. -/
def litPid : List Char := ",\"pid\":".toList

/-- The text of a record between the process id and the process name. -/
def litName : List Char := ",\"process_name\":\"".toList

/-- The text of a record after the closing quote of the process name. -/
def litClose : List Char := "\x7d".toList

/-- Splits a record on the fixed keys and reads the five values: the idle time is the
text up to the next comma, a string value runs up to its closing quote, an integer is
read in decimal. -/
def decodeRecord (line : List Char) : Option Decoded := do
  let rest ← expectLit litIdle line
  let idle := rest.takeWhile (fun c => c != ',')
  let rest ← expectLit litTitle (rest.dropWhile (fun c => c != ','))
  let title ← readString false rest
  let rest ← expectLit litAudio title.2
  let audioPlaying ← readInt rest
  let rest ← expectLit litPid audioPlaying.2
  let pid ← readInt rest
  let rest ← expectLit litName pid.2
  let name ← readString false rest
  if name.2 = litClose then
    some ⟨idle, title.1, audioPlaying.1, pid.1, name.1⟩
  else none

/-- The body of a JSON string (RFC 8259): no raw quote, no raw character below 0x20, and
a backslash only as the start of one of the escapes of the grammar. State 0 is outside
an escape, state 1 follows a backslash, states 2 to 5 count the hexadecimal digits
still expected after a backslash and the letter u. -/
def jsonStringBody : Nat → List Char → Bool
  | st, [] => st == 0
  | 0, c :: rest =>
    if c = '\\' then jsonStringBody 1 rest
    else (c != '"' && decide (32 ≤ c.toNat)) && jsonStringBody 0 rest
  | 1, c :: rest =>
    if c = 'u' then jsonStringBody 5 rest
    else ['"', '\\', '/', 'b', 'f', 'n', 'r', 't'].contains c && jsonStringBody 0 rest
  | k + 2, c :: rest =>
    (c.isDigit || ('a' ≤ c && c ≤ 'f') || ('A' ≤ c && c ≤ 'F'))
      && jsonStringBody (if k = 0 then 0 else k + 1) rest

/-- Blank characters: space, tab, line feed, carriage return. -/
def isBlank (c : Char) : Bool :=
  c = ' ' || c = '\t' || c = '\n' || c = '\r'

/-! ## Sample inputs -/

/-- Every call succeeds and the one session, index 0, is active. -/
def audioAllGranted : AudioEnv :=
  { coInitializeEx := true, coCreateInstance := true, getDefaultAudioEndpoint := true,
    activateVolume := true, activateManager := true, getSessionEnumerator := true,
    count := 1, session := fun _ => SessionOutcome.state AudioSessionState.active }

/-- As `audioAllGranted`, but the activation of `ISimpleAudioVolume` fails. -/
def audioVolumeRefused : AudioEnv :=
  { coInitializeEx := true, coCreateInstance := true, getDefaultAudioEndpoint := true,
    activateVolume := false, activateManager := true, getSessionEnumerator := true,
    count := 1, session := fun _ => SessionOutcome.state AudioSessionState.active }

/-- Every call succeeds and no session is registered. -/
def audioSilent : AudioEnv :=
  { coInitializeEx := true, coCreateInstance := true, getDefaultAudioEndpoint := true,
    activateVolume := true, activateManager := true, getSessionEnumerator := true,
    count := 0, session := fun _ => SessionOutcome.getSessionFailed }

/-- A cycle 5250 ms after the last input, with a notes window in the foreground. -/
def cycleNotes : CycleEnv :=
  { lastInput := some 1000, staleDwTime := 0, currentTick := 6250,
    foreground := some ⟨"Notes — \"draft\"".toList, 4321⟩,
    process := ProcessLookup.path "C:\\Apps\\Notes.EXE".toList,
    audio := audioAllGranted, fault := none }

/-- A cycle in which a `JsonBuilder` call throws. -/
def cycleFaulty : CycleEnv :=
  { lastInput := some 1000, staleDwTime := 0, currentTick := 6250,
    foreground := some ⟨"Notes".toList, 4321⟩,
    process := ProcessLookup.openFailed,
    audio := audioSilent, fault := some FaultPoint.inJsonBuilder }

/-- A cycle in which `GetLastInputInfo` fails, the local `lii.dwTime` happens to hold 0
and the tick counter stands at 5000. -/
def cycleInputQueryFailed : CycleEnv :=
  { lastInput := none, staleDwTime := 0, currentTick := 5000,
    foreground := none, process := ProcessLookup.openFailed,
    audio := audioSilent, fault := none }

/-- A cycle whose foreground window belongs to the process id `0x80000000`, which
cannot be opened. -/
def cycleHighPid : CycleEnv :=
  { lastInput := some 1000, staleDwTime := 0, currentTick := 1000,
    foreground := some ⟨"x".toList, 2147483648⟩, process := ProcessLookup.openFailed,
    audio := audioSilent, fault := none }

/-- A cycle whose foreground window has the one-character title U+0001. -/
def cycleControlTitle : CycleEnv :=
  { lastInput := some 1000, staleDwTime := 0, currentTick := 1000,
    foreground := some ⟨['\x01'], 4⟩, process := ProcessLookup.openFailed,
    audio := audioSilent, fault := none }

/-- A cycle read 1000 ms after the last input, the tick counter having wrapped around
in between. -/
def cycleWrapped : CycleEnv :=
  { lastInput := some 4294967000, staleDwTime := 0, currentTick := 704,
    foreground := none, process := ProcessLookup.openFailed,
    audio := audioSilent, fault := none }

/-! ## Lemmas on `escape` and on the decimal printer -/

theorem escapeStep_eq (o : List Char) (c : Char) :
    escapeStep o c = o ++ escapeCharSpec c := by
  unfold escapeStep escapeCharSpec
  split_ifs <;> rfl

theorem foldl_escapeStep (s o : List Char) :
    s.foldl escapeStep o = o ++ escapeSpec s := by
  induction s generalizing o with
  | nil => simp [escapeSpec]
  | cons c cs ih =>
    rw [List.foldl_cons, ih, escapeStep_eq]
    simp [escapeSpec, List.flatMap_cons]

theorem escape_eq_escapeSpec (s : List Char) : escape s = escapeSpec s := by
  simp [escape, foldl_escapeStep]

theorem escape_nil : escape [] = [] := rfl

theorem escape_cons (c : Char) (cs : List Char) :
    escape (c :: cs) = escapeCharSpec c ++ escape cs := by
  simp [escape_eq_escapeSpec, escapeSpec, List.flatMap_cons]

theorem escapeCharSpec_of_not_special (c : Char) (h : isSpecial c = false) :
    escapeCharSpec c = [c] := by
  simp only [isSpecial, Bool.or_eq_false_iff, decide_eq_false_iff_not] at h
  obtain ⟨⟨⟨⟨h1, h2⟩, h3⟩, h4⟩, h5⟩ := h
  simp [escapeCharSpec, h1, h2, h3, h4, h5]

theorem escapeSpec_of_not_special (s : List Char) (h : ∀ c ∈ s, isSpecial c = false) :
    escapeSpec s = s := by
  induction s with
  | nil => rfl
  | cons c cs ih =>
    have hc := escapeCharSpec_of_not_special c (h c (List.mem_cons_self c cs))
    have hcs := ih (fun d hd => h d (List.mem_cons_of_mem c hd))
    simp only [escapeSpec, List.flatMap_cons] at hcs ⊢
    rw [hc, hcs]
    rfl

/-- No character that `escape` emits is a line feed, a carriage return or a tab. -/
theorem escape_no_control (s : List Char) :
    ∀ c ∈ escape s, c ≠ '\n' ∧ c ≠ '\r' ∧ c ≠ '\t' := by
  induction s with
  | nil => simp [escape_nil]
  | cons d ds ih =>
    intro c hc
    rw [escape_cons, List.mem_append] at hc
    rcases hc with hc | hc
    · unfold escapeCharSpec at hc
      split_ifs at hc with h1 h2 h3 h4 h5 <;>
        simp only [List.mem_cons, List.mem_singleton, List.not_mem_nil, or_false] at hc
      · rcases hc with rfl | rfl <;> decide
      · rcases hc with rfl | rfl <;> decide
      · rcases hc with rfl | rfl <;> decide
      · rcases hc with rfl | rfl <;> decide
      · rcases hc with rfl | rfl <;> decide
      · subst hc
        exact ⟨h3, h4, h5⟩
    · exact ih c hc

theorem digitChar_isDigit : ∀ d, d < 10 → (Nat.digitChar d).isDigit = true := by
  decide

theorem toDigitsCore_isDigit (fuel : Nat) :
    ∀ (n : Nat) (acc : List Char), (∀ c ∈ acc, c.isDigit = true) →
      ∀ c ∈ Nat.toDigitsCore 10 fuel n acc, c.isDigit = true := by
  induction fuel with
  | zero => intro n acc h; simpa [Nat.toDigitsCore] using h
  | succ f ih =>
    intro n acc h
    have hd : (Nat.digitChar (n % 10)).isDigit = true :=
      digitChar_isDigit _ (Nat.mod_lt _ (by norm_num))
    have hacc : ∀ c ∈ Nat.digitChar (n % 10) :: acc, c.isDigit = true := by
      intro c hc
      rcases List.mem_cons.mp hc with rfl | hc
      · exact hd
      · exact h c hc
    simp only [Nat.toDigitsCore]
    split_ifs
    · exact hacc
    · exact ih _ _ hacc

theorem toDigits_isDigit (n : Nat) : ∀ c ∈ Nat.toDigits 10 n, c.isDigit = true :=
  toDigitsCore_isDigit _ _ _ (by simp)

/-- The decimal printer emits only digits and the minus sign. -/
theorem intToChars_chars (v : Int) : ∀ c ∈ intToChars v, c.isDigit = true ∨ c = '-' := by
  intro c hc
  cases v with
  | ofNat n => exact Or.inl (toDigits_isDigit n c hc)
  | negSucc n =>
    rcases List.mem_cons.mp hc with rfl | hc
    · exact Or.inr rfl
    · exact Or.inl (toDigits_isDigit _ c hc)

theorem isDigit_not_blank (c : Char) (h : c.isDigit = true) : isBlank c = false := by
  simp only [isBlank, Bool.or_eq_false_iff, decide_eq_false_iff_not]
  refine ⟨⟨⟨?_, ?_⟩, ?_⟩, ?_⟩ <;> (rintro rfl; revert h; decide)

theorem intToChars_not_blank (v : Int) : ∀ c ∈ intToChars v, isBlank c = false := by
  intro c hc
  rcases intToChars_chars v c hc with h | rfl
  · exact isDigit_not_blank c h
  · decide

/-! ## The shape of the record -/

theorem encodeSample_eq (idleText title : List Char) (audioPlaying : Bool) (pid : Int)
    (processName : List Char) :
    encodeSample idleText title audioPlaying pid processName
      = litIdle ++ (idleText ++ (litTitle ++ (escape title ++ '"' :: (litAudio
          ++ (intToChars (if audioPlaying then 1 else 0) ++ (litPid ++ (intToChars pid
          ++ (litName ++ (escape processName ++ '"' :: litClose))))))))) := by
  simp [encodeSample, JsonBuilder.init, JsonBuilder.addDouble, JsonBuilder.addString,
    JsonBuilder.addInt, JsonBuilder.build, JsonBuilder.comma, litIdle, litTitle, litAudio,
    litPid, litName, litClose]

/-! ## Reading a record back -/

theorem expectLit_append (lit rest : List Char) : expectLit lit (lit ++ rest) = some rest := by
  simp [expectLit]

theorem readString_escape (s rest : List Char) :
    readString false (escape s ++ '"' :: rest) = some (s, rest) := by
  induction s with
  | nil => simp [escape_nil, readString]
  | cons c cs ih =>
    rw [escape_cons]
    unfold escapeCharSpec
    split_ifs with h1 h2 h3 h4 h5
    · subst h1; simp [readString, ih, unescapeChar]
    · subst h2; simp [readString, ih, unescapeChar]
    · subst h3; simp [readString, ih, unescapeChar]
    · subst h4; simp [readString, ih, unescapeChar]
    · subst h5; simp [readString, ih, unescapeChar]
    · simp [readString, ih, h1, h2]

theorem digitChar_toNat : ∀ d, d < 10 → (Nat.digitChar d).toNat - 48 = d := by
  decide

theorem parseNat_append_singleton (ds : List Char) (c : Char) :
    parseNat (ds ++ [c]) = 10 * parseNat ds + (c.toNat - 48) := by
  simp [parseNat, List.foldl_append]

/-- The digits that `Nat.toDigitsCore` puts in front of its accumulator: they are not
empty, they are decimal digits, and they read back as the number. -/
theorem toDigitsCore_spec (fuel : Nat) :
    ∀ (n : Nat) (acc : List Char), n < fuel →
      ∃ ds, Nat.toDigitsCore 10 fuel n acc = ds ++ acc ∧ ds ≠ [] ∧
        (∀ c ∈ ds, c.isDigit = true) ∧ parseNat ds = n := by
  induction fuel with
  | zero => intro n acc h; omega
  | succ f ih =>
    intro n acc h
    have hlt : n % 10 < 10 := Nat.mod_lt _ (by norm_num)
    simp only [Nat.toDigitsCore]
    split_ifs with h0
    · refine ⟨[Nat.digitChar (n % 10)], rfl, by simp, ?_, ?_⟩
      · intro c hc
        rw [List.mem_singleton] at hc
        subst hc
        exact digitChar_isDigit _ hlt
      · have hn : n % 10 = n := by omega
        simp only [parseNat, List.foldl_cons, List.foldl_nil]
        rw [digitChar_toNat _ hlt]
        omega
    · obtain ⟨ds, hds, _, hdig, hval⟩ := ih (n / 10) (Nat.digitChar (n % 10) :: acc) (by omega)
      refine ⟨ds ++ [Nat.digitChar (n % 10)], by simp [hds], by simp, ?_, ?_⟩
      · intro c hc
        rcases List.mem_append.mp hc with hc | hc
        · exact hdig c hc
        · rw [List.mem_singleton] at hc
          subst hc
          exact digitChar_isDigit _ hlt
      · rw [parseNat_append_singleton, hval, digitChar_toNat _ hlt]
        omega

theorem toDigits_spec (n : Nat) :
    Nat.toDigits 10 n ≠ [] ∧ (∀ c ∈ Nat.toDigits 10 n, c.isDigit = true) ∧
      parseNat (Nat.toDigits 10 n) = n := by
  obtain ⟨ds, hds, hne, hdig, hval⟩ := toDigitsCore_spec (n + 1) n [] (by omega)
  rw [List.append_nil] at hds
  unfold Nat.toDigits
  rw [hds]
  exact ⟨hne, hdig, hval⟩

theorem takeWhile_append_stop (p : Char → Bool) (ds : List Char) (c : Char) (rest : List Char)
    (hds : ∀ d ∈ ds, p d = true) (hc : p c = false) :
    (ds ++ c :: rest).takeWhile p = ds ∧ (ds ++ c :: rest).dropWhile p = c :: rest := by
  induction ds with
  | nil => simp [List.takeWhile, List.dropWhile, hc]
  | cons d ds ih =>
    have hd : p d = true := hds d (List.mem_cons_self d ds)
    have := ih (fun e he => hds e (List.mem_cons_of_mem d he))
    simp [List.takeWhile, List.dropWhile, hd, this]

theorem readInt_digits (ds : List Char) (c : Char) (rest : List Char) (hne : ds ≠ [])
    (hds : ∀ d ∈ ds, d.isDigit = true) (hc : c.isDigit = false) :
    readInt (ds ++ c :: rest) = some ((parseNat ds : Int), c :: rest) := by
  obtain ⟨h1, h2⟩ := takeWhile_append_stop Char.isDigit ds c rest hds hc
  cases ds with
  | nil => exact absurd rfl hne
  | cons d ds =>
    have hd : d ≠ '-' := by
      intro h
      have := hds d (List.mem_cons_self d ds)
      rw [h] at this
      revert this
      decide
    rw [List.cons_append] at h1 h2 ⊢
    simp only [readInt, hd, if_false, h1, h2]
    simp

theorem readInt_intToChars (v : Int) (c : Char) (rest : List Char) (hc : c.isDigit = false) :
    readInt (intToChars v ++ c :: rest) = some (v, c :: rest) := by
  cases v with
  | ofNat n =>
    obtain ⟨hne, hdig, hval⟩ := toDigits_spec n
    simp only [intToChars]
    rw [readInt_digits _ c rest hne hdig hc, hval]
    rfl
  | negSucc n =>
    obtain ⟨hne, hdig, hval⟩ := toDigits_spec (n + 1)
    obtain ⟨h1, h2⟩ := takeWhile_append_stop Char.isDigit _ c rest hdig hc
    simp only [intToChars, List.cons_append, readInt, if_true, h1, h2, hval]
    simp [hne, Int.negSucc_eq]

/-- Decoding the record built from five values gives those five values back, provided
the printed idle time holds no comma. -/
theorem decodeRecord_encodeSample (idleText title : List Char) (audioPlaying : Bool)
    (pid : Int) (processName : List Char) (hF : ∀ c ∈ idleText, c ≠ ',') :
    decodeRecord (encodeSample idleText title audioPlaying pid processName)
      = some ⟨idleText, title, if audioPlaying then 1 else 0, pid, processName⟩ := by
  have hidle := takeWhile_append_stop (fun c => c != ',') idleText ','
    (litTitle.tail ++ (escape title ++ '"' :: (litAudio
      ++ (intToChars (if audioPlaying then 1 else 0) ++ (litPid ++ (intToChars pid
      ++ (litName ++ (escape processName ++ '"' :: litClose))))))))
    (by intro d hd; simpa using hF d hd) (by decide)
  have htitle : ∀ r : List Char, ',' :: (litTitle.tail ++ r) = litTitle ++ r := fun _ => rfl
  have hpid : ∀ r : List Char, litPid ++ r = ',' :: (litPid.tail ++ r) := fun _ => rfl
  have hname : ∀ r : List Char, litName ++ r = ',' :: (litName.tail ++ r) := fun _ => rfl
  rw [htitle] at hidle
  rw [encodeSample_eq]
  unfold decodeRecord
  simp only [expectLit_append, hidle.1, hidle.2, readString_escape, Option.bind_eq_bind,
    Option.some_bind, Option.bind_some]
  rw [hpid, readInt_intToChars _ ',' _ (by decide)]
  simp only [Option.some_bind, ← hpid, expectLit_append]
  rw [hname, readInt_intToChars _ ',' _ (by decide)]
  simp only [Option.some_bind, ← hname, expectLit_append, readString_escape, if_true]

/-! ## The session loop and the reference counts -/

theorem sessionLoop_true_iff (session : Nat → SessionOutcome) (fuel : Nat) :
    ∀ (i : Nat) (log : List ComEvent),
      (sessionLoop session fuel i log).1 = true ↔
        ∃ j, i ≤ j ∧ j < i + fuel ∧ session j = SessionOutcome.state AudioSessionState.active := by
  induction fuel with
  | zero =>
    intro i log
    simp only [sessionLoop]
    constructor
    · intro h; cases h
    · rintro ⟨j, h1, h2, _⟩; omega
  | succ f ih =>
    intro i log
    have hstep : ∀ log1 : List ComEvent,
        session i ≠ SessionOutcome.state AudioSessionState.active →
        ((sessionLoop session f (i + 1) log1).1 = true ↔
          ∃ j, i ≤ j ∧ j < i + (f + 1) ∧
            session j = SessionOutcome.state AudioSessionState.active) := by
      intro log1 hne
      rw [ih]
      constructor
      · rintro ⟨j, h1, h2, h3⟩
        exact ⟨j, by omega, by omega, h3⟩
      · rintro ⟨j, h1, h2, h3⟩
        have hij : i ≠ j := fun h => hne (h ▸ h3)
        exact ⟨j, by omega, by omega, h3⟩
    cases hs : session i with
    | getSessionFailed => simpa only [sessionLoop, hs] using hstep _ (by simp [hs])
    | queryInterfaceFailed => simpa only [sessionLoop, hs] using hstep _ (by simp [hs])
    | getStateFailed => simpa only [sessionLoop, hs] using hstep _ (by simp [hs])
    | state st =>
      cases st with
      | active =>
        simp only [sessionLoop, hs, true_iff]
        exact ⟨i, le_refl i, by omega, hs⟩
      | inactive => simpa only [sessionLoop, hs] using hstep _ (by simp [hs])
      | expired => simpa only [sessionLoop, hs] using hstep _ (by simp [hs])

theorem netRefs_append (l1 l2 : List ComEvent) : netRefs (l1 ++ l2) = netRefs l1 + netRefs l2 := by
  induction l1 with
  | nil => simp [netRefs]
  | cons e es ih => cases e <;> simp [netRefs, ih] <;> omega

theorem netInit_append (l1 l2 : List ComEvent) : netInit (l1 ++ l2) = netInit l1 + netInit l2 := by
  induction l1 with
  | nil => simp [netInit]
  | cons e es ih => cases e <;> simp [netInit, ih] <;> omega

/-- The loop leaves one reference unreleased exactly when it is left through `break`,
and makes no call that initialises or uninitialises the audio subsystem. -/
theorem sessionLoop_net (session : Nat → SessionOutcome) (fuel : Nat) :
    ∀ (i : Nat) (log : List ComEvent),
      netRefs (sessionLoop session fuel i log).2
          = netRefs log + (if (sessionLoop session fuel i log).1 then 1 else 0) ∧
        netInit (sessionLoop session fuel i log).2 = netInit log := by
  induction fuel with
  | zero => intro i log; simp [sessionLoop]
  | succ f ih =>
    intro i log
    cases hs : session i with
    | getSessionFailed => simpa only [sessionLoop, hs] using ih _ _
    | queryInterfaceFailed =>
      simp only [sessionLoop, hs]
      rw [(ih _ _).1, (ih _ _).2]
      simp [netRefs_append, netInit_append, netRefs, netInit]
    | getStateFailed =>
      simp only [sessionLoop, hs]
      rw [(ih _ _).1, (ih _ _).2]
      simp [netRefs_append, netInit_append, netRefs, netInit]
    | state st =>
      cases st with
      | active => simp [sessionLoop, hs, netRefs_append, netInit_append, netRefs, netInit]
      | inactive =>
        simp only [sessionLoop, hs]
        rw [(ih _ _).1, (ih _ _).2]
        simp [netRefs_append, netInit_append, netRefs, netInit]
      | expired =>
        simp only [sessionLoop, hs]
        rw [(ih _ _).1, (ih _ _).2]
        simp [netRefs_append, netInit_append, netRefs, netInit]

/-- Over all objects, `IsAudioPlaying` returns with one reference unreleased when it
returns `true` and with none when it returns `false`; every successful initialisation is
paired with one uninitialisation. -/
theorem IsAudioPlaying_net (env : AudioEnv) :
    netRefs (IsAudioPlaying env).2 = (if (IsAudioPlaying env).1 then 1 else 0) ∧
      netInit (IsAudioPlaying env).2 = 0 := by
  have h := sessionLoop_net env.session env.count.toNat 0
  unfold IsAudioPlaying audioFromEnumerator audioFromDevice audioFromVolume audioFromManager
    audioFromSessionEnumerator
  cases env.coInitializeEx <;> cases env.coCreateInstance <;>
    cases env.getDefaultAudioEndpoint <;> cases env.activateVolume <;>
    cases env.activateManager <;> cases env.getSessionEnumerator <;>
    simp [netRefs_append, netInit_append, netRefs, netInit, h]

theorem IsAudioPlaying_true_iff (env : AudioEnv) :
    (IsAudioPlaying env).1 = true ↔
      env.coInitializeEx = true ∧ env.coCreateInstance = true ∧
      env.getDefaultAudioEndpoint = true ∧ env.activateVolume = true ∧
      env.activateManager = true ∧ env.getSessionEnumerator = true ∧
      ∃ i : Nat, (i : Int) < env.count ∧
        env.session i = SessionOutcome.state AudioSessionState.active := by
  have h := fun log => sessionLoop_true_iff env.session env.count.toNat 0 log
  have hex : (∃ j, 0 ≤ j ∧ j < 0 + env.count.toNat ∧
        env.session j = SessionOutcome.state AudioSessionState.active) ↔
      ∃ i : Nat, (i : Int) < env.count ∧
        env.session i = SessionOutcome.state AudioSessionState.active := by
    constructor
    · rintro ⟨j, _, h2, h3⟩
      exact ⟨j, by omega, h3⟩
    · rintro ⟨j, h2, h3⟩
      exact ⟨j, Nat.zero_le j, by omega, h3⟩
  unfold IsAudioPlaying audioFromEnumerator audioFromDevice audioFromVolume audioFromManager
    audioFromSessionEnumerator
  cases env.coInitializeEx <;> cases env.coCreateInstance <;>
    cases env.getDefaultAudioEndpoint <;> cases env.activateVolume <;>
    cases env.activateManager <;> cases env.getSessionEnumerator <;>
    simp [h, hex]

/-! ## The sampling loop -/

/-- The diagnostics of `GetProcessName` hold no line of `std::cout`, no failure notice
of the main loop and no `Sleep`. -/
theorem GetProcessName_events (os : ProcessLookup) (pid : Nat) :
    outLines ((GetProcessName os pid).1.map Event.err) = 0 ∧
      failureNotices ((GetProcessName os pid).1.map Event.err) = 0 ∧
      sleeps ((GetProcessName os pid).1.map Event.err) = 0 := by
  cases os <;>
    simp [GetProcessName, outLines, failureNotices, sleeps, Event.isOut, List.count_cons,
      List.countP_cons]

theorem GetWinStatus_thrown_iff (fmt : ℚ → List Char) (env : CycleEnv) :
    (GetWinStatus fmt env).2 = Completion.thrown ↔ env.fault ≠ none := by
  unfold GetWinStatus
  cases hf : env.fault with
  | none => simp
  | some f => cases f <;> simp

/-- One cycle: the body of the loop always completes normally and sleeps once; it
writes one record line and no failure notice when `GetWinStatus` returns, no record
line and one failure notice when `GetWinStatus` throws. -/
theorem loopBody_spec (fmt : ℚ → List Char) (env : CycleEnv) :
    (loopBody fmt env).2 = Completion.normal ∧
      sleeps (loopBody fmt env).1 = 1 ∧
      outLines (loopBody fmt env).1 = (if env.fault.isNone then 1 else 0) ∧
      failureNotices (loopBody fmt env).1 = (if env.fault.isNone then 0 else 1) := by
  obtain ⟨h1, h2, h3⟩ := GetProcessName_events env.process (foregroundPid env)
  unfold outLines at h1
  unfold failureNotices at h2
  unfold sleeps at h3
  unfold loopBody GetWinStatus
  cases hf : env.fault with
  | none =>
    simp [outLines, failureNotices, sleeps, List.count_append, List.countP_append, h1, h2, h3,
      Event.isOut, List.count_cons, List.countP_cons]
  | some f =>
    cases f <;>
      simp [outLines, failureNotices, sleeps, List.count_append, List.countP_append, h1, h2,
        h3, Event.isOut, List.count_cons, List.countP_cons]

/-- Whatever the cycles do, the loop runs every iteration it is observed for: the
number of completed iterations and of `Sleep(2000)` calls is the fuel, the record lines
are as many as the cycles without an exception, the failure notices as many as the
cycles with one. -/
theorem mainLoop_spec (fmt : ℚ → List Char) (envs : Nat → CycleEnv) (fuel : Nat) :
    ∀ i : Nat,
      (mainLoop fmt envs fuel i).2 = fuel ∧
      sleeps (mainLoop fmt envs fuel i).1 = fuel ∧
      outLines (mainLoop fmt envs fuel i).1
        = (List.range' i fuel).countP (fun k => (envs k).fault.isNone) ∧
      failureNotices (mainLoop fmt envs fuel i).1
        = (List.range' i fuel).countP (fun k => !(envs k).fault.isNone) := by
  induction fuel with
  | zero => intro i; simp [mainLoop, sleeps, outLines, failureNotices]
  | succ f ih =>
    intro i
    obtain ⟨h1, h2, h3, h4⟩ := loopBody_spec fmt (envs i)
    obtain ⟨k1, k2, k3, k4⟩ := ih (i + 1)
    unfold outLines at h3 k3
    unfold failureNotices at h4 k4
    unfold sleeps at h2 k2
    have hb : loopBody fmt (envs i) = ((loopBody fmt (envs i)).1, Completion.normal) := by
      rw [← h1]
    simp only [mainLoop]
    rw [hb]
    simp only [outLines, failureNotices, sleeps, List.count_append, List.countP_append, h2, h3,
      h4, k1, k2, k3, k4, List.range'_succ, List.countP_cons]
    refine ⟨trivial, by omega, ?_, ?_⟩
    · cases (envs i).fault.isNone <;> simp [Nat.add_comm]
    · cases (envs i).fault.isNone <;> simp [Nat.add_comm]

/-! ## The idle time -/

theorem dwordSub_eq_emod (a b : Nat) :
    ((dwordSub a b : Nat) : Int) = ((a : Int) - (b : Int)) % 4294967296 := by
  unfold dwordSub
  omega

theorem dwordSub_lt (a b : Nat) : dwordSub a b < 4294967296 := by
  unfold dwordSub
  omega

theorem dwordSub_elapsed (last e current : Nat) (he : e < 4294967296)
    (hc : current % 4294967296 = (last + e) % 4294967296) : dwordSub current last = e := by
  unfold dwordSub
  omega

/-! ## Properties of the record encoder -/

theorem encodeSample_forall (P : Char → Prop) (idleText title : List Char)
    (audioPlaying : Bool) (pid : Int) (processName : List Char)
    (hlit : ∀ c ∈ litIdle ++ litTitle ++ litAudio ++ litPid ++ litName ++ '"' :: litClose, P c)
    (hint : ∀ (v : Int), ∀ c ∈ intToChars v, P c)
    (hidle : ∀ c ∈ idleText, P c) (htitle : ∀ c ∈ escape title, P c)
    (hname : ∀ c ∈ escape processName, P c) :
    ∀ c ∈ encodeSample idleText title audioPlaying pid processName, P c := by
  intro c hc
  rw [encodeSample_eq] at hc
  simp only [List.mem_append, List.mem_cons] at hc hlit
  rcases hc with h | h | h | h | h | h | h | h | h | h | h | h | h
  · exact hlit c (by tauto)
  · exact hidle c h
  · exact hlit c (by tauto)
  · exact htitle c h
  · exact hlit c (by tauto)
  · exact hlit c (by tauto)
  · exact hint _ c h
  · exact hlit c (by tauto)
  · exact hint _ c h
  · exact hlit c (by tauto)
  · exact hname c h
  · exact hlit c (by tauto)
  · exact hlit c (by tauto)

/-- C1. The record built by `JsonBuilder` from the five values of a sample is the
opening brace, the five keys in their fixed order, each once, each followed by its
value, commas only between the pairs, and the closing brace; the audio flag is printed
as 0 or 1. When the printed idle time holds no blank character, the record holds no raw
line feed or carriage return, and the record outside its two string values (the record
of the same sample with both strings empty) holds no blank character at all. For the
sample of the end-to-end scenario the record is the one the specification gives. -/
theorem encodeSample_record_shape (idleText title : List Char) (audioPlaying : Bool)
    (pid : Int) (processName : List Char) :
    encodeSample idleText title audioPlaying pid processName
        = "\x7b\"idle_time\":".toList ++ idleText
          ++ ",\"window_title\":\"".toList ++ escape title
          ++ "\",\"audio_playing\":".toList ++ (if audioPlaying then ['1'] else ['0'])
          ++ ",\"pid\":".toList ++ intToChars pid
          ++ ",\"process_name\":\"".toList ++ escape processName ++ "\"\x7d".toList
      ∧ ((∀ c ∈ idleText, isBlank c = false) →
          (∀ c ∈ encodeSample idleText title audioPlaying pid processName,
            c ≠ '\n' ∧ c ≠ '\r')
          ∧ (∀ c ∈ encodeSample idleText [] audioPlaying pid [], isBlank c = false))
      ∧ encodeSample "5.25".toList "Notes — \"draft\"".toList true 4321 "notes.exe".toList
        = "\x7b\"idle_time\":5.25,\"window_title\":\"Notes — \\\"draft\\\"\",\"audio_playing\":1,\"pid\":4321,\"process_name\":\"notes.exe\"\x7d".toList := by
  have hblank : ∀ c : Char, isBlank c = false → c ≠ '\n' ∧ c ≠ '\r' := by
    intro c h
    simp only [isBlank, Bool.or_eq_false_iff, decide_eq_false_iff_not] at h
    exact ⟨h.1.2, h.2⟩
  refine ⟨?_, ?_, by decide⟩
  · rw [encodeSample_eq]
    cases audioPlaying <;>
      simp [litIdle, litTitle, litAudio, litPid, litName, litClose, intToChars, Nat.toDigits,
        Nat.toDigitsCore, Nat.digitChar]
  · intro hF
    constructor
    · apply encodeSample_forall
      · decide
      · exact fun v c hc => hblank c (intToChars_not_blank v c hc)
      · exact fun c hc => hblank c (hF c hc)
      · exact fun c hc => ⟨(escape_no_control title c hc).1, (escape_no_control title c hc).2.1⟩
      · exact fun c hc =>
          ⟨(escape_no_control processName c hc).1, (escape_no_control processName c hc).2.1⟩
    · apply encodeSample_forall
      · decide
      · exact intToChars_not_blank
      · exact hF
      · simp [escape_nil]
      · simp [escape_nil]

/-- Witness for C1: the record of the end-to-end sample, whose printed idle time
`5.25` holds no blank character. -/
theorem encodeSample_record_shape_witness :
    (∀ c ∈ "5.25".toList, isBlank c = false) ∧
      (∀ c ∈ encodeSample "5.25".toList "Notes — \"draft\"".toList true 4321
          "notes.exe".toList, c ≠ '\n' ∧ c ≠ '\r') :=
  ⟨by decide,
    ((encodeSample_record_shape "5.25".toList "Notes — \"draft\"".toList true 4321
      "notes.exe".toList).2.1 (by decide)).1⟩

/-- C2. For every string, `JsonBuilder::escape` returns the string with each double
quote, backslash, line feed, carriage return and tab replaced by its two-character
escape and every other character copied, in order; a string holding none of the five
characters is returned unchanged. -/
theorem escape_replaces_each_character (s : List Char) :
    escape s = escapeSpec s ∧ ((∀ c ∈ s, isSpecial c = false) → escape s = s) := by
  refine ⟨escape_eq_escapeSpec s, fun h => ?_⟩
  rw [escape_eq_escapeSpec, escapeSpec_of_not_special s h]

/-- Witness for C2: `notes.exe` holds none of the five characters and is unchanged. -/
theorem escape_replaces_each_character_witness :
    (∀ c ∈ "notes.exe".toList, isSpecial c = false) ∧
      escape "notes.exe".toList = "notes.exe".toList :=
  ⟨by decide, (escape_replaces_each_character "notes.exe".toList).2 (by decide)⟩

theorem escape_injective (s1 s2 : List Char) (h : escape s1 = escape s2) : s1 = s2 := by
  have h1 := readString_escape s1 []
  have h2 := readString_escape s2 []
  rw [h, h2] at h1
  simpa using h1.symm

/-- C3. Round trip: for every printed idle time without a comma, every window title,
audio flag, process id and process name, decoding the record built by `JsonBuilder`
gives back the printed idle time, the title, the flag as 0 or 1, the process id and the
name. Hence `escape` is injective, and two records that differ only in the title are
different. -/
theorem decode_encode_roundtrip (idleText title : List Char) (audioPlaying : Bool)
    (pid : Int) (processName : List Char) (hF : ∀ c ∈ idleText, c ≠ ',') :
    decodeRecord (encodeSample idleText title audioPlaying pid processName)
        = some ⟨idleText, title, if audioPlaying then 1 else 0, pid, processName⟩
      ∧ (∀ s1 s2 : List Char, escape s1 = escape s2 → s1 = s2)
      ∧ (∀ title2 : List Char,
          encodeSample idleText title2 audioPlaying pid processName
            = encodeSample idleText title audioPlaying pid processName → title2 = title) := by
  refine ⟨decodeRecord_encodeSample _ _ _ _ _ hF, escape_injective, fun title2 h => ?_⟩
  have h1 := decodeRecord_encodeSample idleText title2 audioPlaying pid processName hF
  rw [h, decodeRecord_encodeSample _ _ _ _ _ hF] at h1
  simp only [Option.some.injEq, Decoded.mk.injEq] at h1
  exact h1.2.1.symm

/-- Witness for C3: a title with a quote, a backslash and a line feed, and a negative
process id. -/
theorem decode_encode_roundtrip_witness :
    (∀ c ∈ "5.25".toList, c ≠ ',') ∧
      decodeRecord (encodeSample "5.25".toList "a\"b\\c\nd".toList true (-7) "x.exe".toList)
        = some ⟨"5.25".toList, "a\"b\\c\nd".toList, 1, -7, "x.exe".toList⟩ :=
  ⟨by decide,
    (decode_encode_roundtrip "5.25".toList "a\"b\\c\nd".toList true (-7) "x.exe".toList
      (by decide)).1⟩

/-- The escaped form of a string is the body of a JSON string whenever the string
holds no control character other than line feed, carriage return and tab. -/
theorem jsonStringBody_escape (s : List Char)
    (h : ∀ c ∈ s, 32 ≤ c.toNat ∨ c = '\n' ∨ c = '\r' ∨ c = '\t') :
    jsonStringBody 0 (escape s) = true := by
  induction s with
  | nil => rfl
  | cons c cs ih =>
    have hcs := ih (fun d hd => h d (List.mem_cons_of_mem c hd))
    have hc := h c (List.mem_cons_self c cs)
    rw [escape_cons]
    unfold escapeCharSpec
    split_ifs with h1 h2 h3 h4 h5
    · simpa [jsonStringBody] using hcs
    · simpa [jsonStringBody] using hcs
    · simpa [jsonStringBody] using hcs
    · simpa [jsonStringBody] using hcs
    · simpa [jsonStringBody] using hcs
    · have h32 : 32 ≤ c.toNat := by
        rcases hc with hc | hc | hc | hc
        · exact hc
        · exact absurd hc h3
        · exact absurd hc h4
        · exact absurd hc h5
      simp [jsonStringBody, h1, h2, h32, hcs]

/-- C4, at the failing input. A window title that is the single control character
U+0001 reaches the encoder as it is, `escape` copies it unchanged, the string value of
the record is not the body of a JSON string, and the record written for that cycle
holds the raw control character between the quotes of `window_title`. -/
theorem control_character_left_raw :
    windowTitle cycleControlTitle = ['\x01'] ∧
      escape ['\x01'] = ['\x01'] ∧
      jsonStringBody 0 (escape ['\x01']) = false ∧
      recordLine (fun _ => ['0']) cycleControlTitle
        = "\x7b\"idle_time\":0,\"window_title\":\"\x01\",\"audio_playing\":0,\"pid\":4,\"process_name\":\"\"\x7d".toList := by
  decide

/-! ## Properties of `IsAudioPlaying` -/

/-- C5, the claim as stated fails. With every step the claim lists succeeding
(initialisation, device enumerator, default endpoint, session manager, session
enumerator) and session 0 active, `IsAudioPlaying` returns `false` when the activation of
`ISimpleAudioVolume` fails, and `true` when it succeeds: the two inputs agree on the
listed steps and on all session states, and the results differ. -/
theorem IsAudioPlaying_needs_volume_activation :
    (IsAudioPlaying audioVolumeRefused).1 = false ∧
      (IsAudioPlaying audioAllGranted).1 = true ∧
      audioVolumeRefused.coInitializeEx = true ∧
      audioVolumeRefused.coCreateInstance = true ∧
      audioVolumeRefused.getDefaultAudioEndpoint = true ∧
      audioVolumeRefused.activateManager = true ∧
      audioVolumeRefused.getSessionEnumerator = true ∧
      (0 : Int) < audioVolumeRefused.count ∧
      audioVolumeRefused.session 0 = SessionOutcome.state AudioSessionState.active ∧
      audioAllGranted.coInitializeEx = audioVolumeRefused.coInitializeEx ∧
      audioAllGranted.coCreateInstance = audioVolumeRefused.coCreateInstance ∧
      audioAllGranted.getDefaultAudioEndpoint = audioVolumeRefused.getDefaultAudioEndpoint ∧
      audioAllGranted.activateManager = audioVolumeRefused.activateManager ∧
      audioAllGranted.getSessionEnumerator = audioVolumeRefused.getSessionEnumerator ∧
      audioAllGranted.count = audioVolumeRefused.count ∧
      audioAllGranted.session = audioVolumeRefused.session := by
  refine ⟨by decide, by decide, rfl, rfl, rfl, rfl, rfl, by decide, rfl, rfl, rfl, rfl, rfl,
    rfl, rfl, rfl⟩

/-- C5, amended. `IsAudioPlaying` returns `true` if and only if the initialisation, the
creation of the device enumerator, the default endpoint, the activation of
`ISimpleAudioVolume`, the activation of the session manager and the session enumerator
all succeed and some session with an index below `count` is retrieved and reported
active; so it returns `false` when any of the six steps fails and when no session is
active. Two runs that agree on the six steps, on `count` and on the session outcomes
return the same value. -/
theorem IsAudioPlaying_iff_chain_and_active_session (env : AudioEnv) :
    ((IsAudioPlaying env).1 = true ↔
        env.coInitializeEx = true ∧ env.coCreateInstance = true ∧
        env.getDefaultAudioEndpoint = true ∧ env.activateVolume = true ∧
        env.activateManager = true ∧ env.getSessionEnumerator = true ∧
        ∃ i : Nat, (i : Int) < env.count ∧
          env.session i = SessionOutcome.state AudioSessionState.active)
      ∧ ∀ env2 : AudioEnv,
          env2.coInitializeEx = env.coInitializeEx →
          env2.coCreateInstance = env.coCreateInstance →
          env2.getDefaultAudioEndpoint = env.getDefaultAudioEndpoint →
          env2.activateVolume = env.activateVolume →
          env2.activateManager = env.activateManager →
          env2.getSessionEnumerator = env.getSessionEnumerator →
          env2.count = env.count →
          (∀ i : Nat, (i : Int) < env.count → env2.session i = env.session i) →
          (IsAudioPlaying env2).1 = (IsAudioPlaying env).1 := by
  refine ⟨IsAudioPlaying_true_iff env, ?_⟩
  intro env2 h1 h2 h3 h4 h5 h6 h7 h8
  rw [Bool.eq_iff_iff, IsAudioPlaying_true_iff, IsAudioPlaying_true_iff, h1, h2, h3, h4, h5, h6,
    h7]
  constructor
  · rintro ⟨a, b, c, d, e, f, i, hi, hs⟩
    exact ⟨a, b, c, d, e, f, i, hi, (h8 i hi) ▸ hs⟩
  · rintro ⟨a, b, c, d, e, f, i, hi, hs⟩
    exact ⟨a, b, c, d, e, f, i, hi, (h8 i hi).symm ▸ hs⟩

/-- Witness for C5: with every call granted and session 0 active the result is `true`. -/
theorem IsAudioPlaying_iff_chain_and_active_session_witness :
    (IsAudioPlaying audioAllGranted).1 = true :=
  (IsAudioPlaying_iff_chain_and_active_session audioAllGranted).1.mpr
    ⟨rfl, rfl, rfl, rfl, rfl, rfl, 0, by decide, rfl⟩

/-- C6, at the failing input. With every call granted and session 0 active,
`IsAudioPlaying` leaves the loop through `break`: the reference `pControl` obtained from
`GetSession(0)` is acquired once and never released, so one reference is outstanding
at return. The five earlier objects and `pControl2` are released once each, and the
initialisation is paired with one uninitialisation. -/
theorem IsAudioPlaying_leaks_session_control :
    (IsAudioPlaying audioAllGranted).1 = true ∧
      acquires (IsAudioPlaying audioAllGranted).2 (ComObj.sessionControl 0) = 1 ∧
      releases (IsAudioPlaying audioAllGranted).2 (ComObj.sessionControl 0) = 0 ∧
      netRefs (IsAudioPlaying audioAllGranted).2 = 1 ∧
      acquires (IsAudioPlaying audioAllGranted).2 (ComObj.sessionControl2 0) = 1 ∧
      releases (IsAudioPlaying audioAllGranted).2 (ComObj.sessionControl2 0) = 1 ∧
      (∀ o ∈ [ComObj.deviceEnumerator, ComObj.device, ComObj.volume, ComObj.sessionManager,
          ComObj.sessionEnumerator],
        acquires (IsAudioPlaying audioAllGranted).2 o = 1 ∧
          releases (IsAudioPlaying audioAllGranted).2 o = 1) ∧
      netInit (IsAudioPlaying audioAllGranted).2 = 0 := by
  decide

/-! ## Properties of the sampling loop -/

/-- C7. For every cycle: when `GetWinStatus` throws, the handler of `main` adds exactly
one failure notice, the cycle writes no line to `std::cout`, and the body of the loop
goes on to `Sleep(2000)` and completes normally; when `GetWinStatus` returns, the cycle
writes exactly one line to `std::cout`, the record, and no failure notice. Over any run
of the loop every iteration is executed whatever the earlier cycles did: after `fuel`
iterations there were `fuel` sleeps, one record line per cycle without an exception and
one failure notice per cycle with one. -/
theorem mainLoop_survives_failed_cycles (fmt : ℚ → List Char) (envs : Nat → CycleEnv)
    (fuel : Nat) :
    (∀ env : CycleEnv,
        (loopBody fmt env).2 = Completion.normal ∧
        ((GetWinStatus fmt env).2 = Completion.thrown →
          (loopBody fmt env).1 = (GetWinStatus fmt env).1
            ++ [Event.err Diag.mainLoopError, Event.sleep 2000] ∧
          outLines (loopBody fmt env).1 = 0 ∧ failureNotices (loopBody fmt env).1 = 1 ∧
          sleeps (loopBody fmt env).1 = 1) ∧
        ((GetWinStatus fmt env).2 = Completion.normal →
          (loopBody fmt env).1 = (GetProcessName env.process (foregroundPid env)).1.map Event.err
            ++ [Event.out (recordLine fmt env), Event.sleep 2000] ∧
          outLines (loopBody fmt env).1 = 1 ∧ failureNotices (loopBody fmt env).1 = 0 ∧
          sleeps (loopBody fmt env).1 = 1))
      ∧ (mainLoop fmt envs fuel 0).2 = fuel
      ∧ sleeps (mainLoop fmt envs fuel 0).1 = fuel
      ∧ outLines (mainLoop fmt envs fuel 0).1
          = (List.range' 0 fuel).countP (fun k => (envs k).fault.isNone)
      ∧ failureNotices (mainLoop fmt envs fuel 0).1
          = (List.range' 0 fuel).countP (fun k => !(envs k).fault.isNone) := by
  refine ⟨fun env => ?_, mainLoop_spec fmt envs fuel 0⟩
  obtain ⟨h1, h2, h3, h4⟩ := loopBody_spec fmt env
  refine ⟨h1, fun ht => ?_, fun hn => ?_⟩
  · have hf : env.fault ≠ none := (GetWinStatus_thrown_iff fmt env).mp ht
    have hnone : env.fault.isNone = false := by
      cases hfault : env.fault with
      | none => exact absurd hfault hf
      | some f => rfl
    rw [hnone] at h3 h4
    refine ⟨?_, by simpa using h3, by simpa using h4, h2⟩
    unfold loopBody
    generalize GetWinStatus fmt env = r at ht
    obtain ⟨ev, c⟩ := r
    simp only at ht
    subst ht
    simp
  · have hf : env.fault = none := by
      by_contra hne
      have := (GetWinStatus_thrown_iff fmt env).mpr hne
      rw [hn] at this
      cases this
    rw [hf] at h3 h4
    refine ⟨?_, by simpa using h3, by simpa using h4, h2⟩
    unfold loopBody GetWinStatus
    rw [hf]
    simp

/-- Witness for C7: three cycles, the middle one throwing: three sleeps, two record
lines, one failure notice, and the loop still running. -/
theorem mainLoop_survives_failed_cycles_witness :
    (GetWinStatus (fun _ => "5.25".toList) cycleFaulty).2 = Completion.thrown ∧
      outLines (loopBody (fun _ => "5.25".toList) cycleFaulty).1 = 0 ∧
      failureNotices (loopBody (fun _ => "5.25".toList) cycleFaulty).1 = 1 ∧
      (mainLoop (fun _ => "5.25".toList)
        (fun k => if k = 1 then cycleFaulty else cycleNotes) 3 0).2 = 3 :=
  ⟨by decide,
    (((mainLoop_survives_failed_cycles (fun _ => "5.25".toList)
      (fun k => if k = 1 then cycleFaulty else cycleNotes) 3).1 cycleFaulty).2.1
        (by decide)).2.1,
    (((mainLoop_survives_failed_cycles (fun _ => "5.25".toList)
      (fun k => if k = 1 then cycleFaulty else cycleNotes) 3).1 cycleFaulty).2.1
        (by decide)).2.2.1,
    (mainLoop_survives_failed_cycles (fun _ => "5.25".toList)
      (fun k => if k = 1 then cycleFaulty else cycleNotes) 3).2.1⟩

/-! ## Properties of the process id and of the idle time -/

/-- A process id below `2 ^ 31` is printed as it is, also when its name cannot be
resolved, and the process id is 0 when there is no foreground window. -/
theorem castInt_of_lt (pid : Nat) (h : pid < 2147483648) : castInt pid = (pid : Int) := by
  unfold castInt
  have : pid % 4294967296 = pid := Nat.mod_eq_of_lt (by omega)
  rw [this, if_pos h]

theorem foregroundPid_of_no_window (env : CycleEnv) (h : env.foreground = none) :
    foregroundPid env = 0 := by
  simp [foregroundPid, h]

/-- C8, at the failing input. For the process id `0x80000000` of a foreground window
whose process cannot be opened, the cast `(int)pid` is negative and the record carries
`"pid":-2147483648` with an empty process name, where the diagnostic line of
`GetProcessName` carries the process id itself. -/
theorem pid_field_negative_for_large_pid :
    foregroundPid cycleHighPid = 2147483648 ∧
      castInt (foregroundPid cycleHighPid) = -2147483648 ∧
      GetProcessName cycleHighPid.process (foregroundPid cycleHighPid)
        = ([Diag.openError 2147483648], []) ∧
      recordLine (fun _ => ['0']) cycleHighPid
        = "\x7b\"idle_time\":0,\"window_title\":\"x\",\"audio_playing\":0,\"pid\":-2147483648,\"process_name\":\"\"\x7d".toList := by
  decide

/-- C9. For every pair of tick-counter readings, the idle time of `GetWinStatus` is
`((currentTick - dwTime) mod 2 ^ 32) / 1000`; it is never negative and is below
4294967.296; and when `e < 2 ^ 32` milliseconds have passed since the last input, so
that `currentTick = (dwTime + e) mod 2 ^ 32`, it is `e / 1000`, wrapped counter or not. -/
theorem idleTime_is_modular_difference (env : CycleEnv) :
    idleTime env
        = ((((env.currentTick : Int) - (env.dwTime : Int)) % 4294967296 : Int) : ℚ) / 1000
      ∧ 0 ≤ idleTime env
      ∧ idleTime env < 4294967.296
      ∧ ∀ e : Nat, e < 4294967296 →
          env.currentTick = (env.dwTime + e) % 4294967296 →
          idleTime env = (e : ℚ) / 1000 := by
  have hlt : idleMillis env < 4294967296 := dwordSub_lt _ _
  refine ⟨?_, ?_, ?_, ?_⟩
  · unfold idleTime idleMillis
    rw [← dwordSub_eq_emod, Int.cast_natCast]
  · unfold idleTime
    positivity
  · unfold idleTime
    rw [div_lt_iff₀ (by norm_num)]
    norm_num
    exact hlt
  · intro e he hc
    unfold idleTime idleMillis
    rw [dwordSub_elapsed env.dwTime e env.currentTick he (by rw [hc, Nat.mod_mod])]

/-- Witness for C9: last input at tick 4294967000, read 1000 ms later at tick 704,
after the counter wrapped: the idle time is one second. -/
theorem idleTime_is_modular_difference_witness :
    (1000 < 4294967296 ∧ cycleWrapped.currentTick = (cycleWrapped.dwTime + 1000) % 4294967296)
      ∧ idleTime cycleWrapped = ((1000 : Nat) : ℚ) / 1000 :=
  ⟨⟨by decide, by decide⟩,
    (idleTime_is_modular_difference cycleWrapped).2.2.2 1000 (by decide) (by decide)⟩

/-- C10, at the failing input. `GetLastInputInfo` fails, the local `lii.dwTime` keeps the
value 0 it happened to hold and the tick counter stands at 5000: the cycle is not
aborted and writes its record, but the idle time is 5 seconds, not 0; with another
stale value in `lii.dwTime` the same cycle gives another idle time. -/
theorem idleTime_after_failed_input_query :
    cycleInputQueryFailed.lastInput = none ∧
      idleMillis cycleInputQueryFailed = 5000 ∧
      idleTime cycleInputQueryFailed = 5 ∧
      idleTime cycleInputQueryFailed ≠ 0 ∧
      idleMillis { cycleInputQueryFailed with staleDwTime := 1000 } = 4000 ∧
      (GetWinStatus (fun _ => ['5']) cycleInputQueryFailed).2 = Completion.normal ∧
      outLines (GetWinStatus (fun _ => ['5']) cycleInputQueryFailed).1 = 1 := by
  have h : idleMillis cycleInputQueryFailed = 5000 := by decide
  refine ⟨rfl, h, ?_, ?_, by decide, by decide, by decide⟩
  · unfold idleTime
    rw [h]
    norm_num
  · unfold idleTime
    rw [h]
    norm_num

end MonitorWin
